import Mathlib

/-!
Verification development for the Caido "Match & Replace Rule Template" plugin
(frontend `App.vue` script and backend `index.ts`).

The TypeScript source is shallowly embedded:

* JavaScript runtime values that flow through `Record<string, unknown>` are
  modelled by the inductive `JVal` (JSON-representable values; a missing
  property is `Option.none`, JS `undefined`).
* JS string helpers used by the source (`trim`, `toLowerCase`, `includes`,
  `startsWith`, and the two concrete regex replacements of
  `normalizeHttpqlQuery`) are modelled as executable functions; `toLowerCase`
  is modelled on ASCII letters, which covers every discriminator and example
  string that appears in the source.
* A JS expression that would raise a `TypeError` (for example calling
  `.includes` on a number) is modelled with `Except Unit`; the `try`/`catch`
  wrappers of the source convert such an error to the documented fallback.
-/

/-- JSON-representable JavaScript runtime values.  A missing object property
(JS `undefined`) is represented by `Option.none` at lookup sites, so `null`
and `undefined` stay distinct, exactly as in the source. -/
inductive JVal where
  | null : JVal
  | bool : Bool → JVal
  | num : Int → JVal
  | str : String → JVal
  | arr : List JVal → JVal
  | obj : List (String × JVal) → JVal

/-- Property lookup on an object field list (first binding wins). -/
def jget : List (String × JVal) → String → Option JVal
  | [], _ => none
  | (k, v) :: rest, key => if k = key then some v else jget rest key

/-- JS truthiness of a value. -/
def truthy : JVal → Bool
  | .null => false
  | .bool b => b
  | .num n => n != 0
  | .str s => s != ""
  | .arr _ => true
  | .obj _ => true

/-- Models a JS `x && typeof x === "object"` guard followed by string-keyed
property reads: a non-null object passes with its fields, an array passes
(its string-keyed properties are all `undefined`), everything else fails. -/
def asObjTruthy : Option JVal → Option (List (String × JVal))
  | some (.obj fs) => some fs
  | some (.arr _) => some []
  | _ => none

/-- Models `typeof o.k === "string" ? o.k : undefined`. -/
def strField (fs : List (String × JVal)) (k : String) : Option String :=
  match jget fs k with
  | some (.str s) => some s
  | _ => none

/-- Models `"k" in o`. -/
def hasField (fs : List (String × JVal)) (k : String) : Bool :=
  (jget fs k).isSome

/-- The character class of the JS `\s` regex escape and of `String.trim`
(ECMA-262 WhiteSpace and LineTerminator code points). -/
def jsWhitespace (c : Char) : Bool :=
  c == ' ' || c == '\t' || c == '\n' || c == '\r' ||
  c.toNat == 0x0b || c.toNat == 0x0c || c.toNat == 0xa0 || c.toNat == 0xfeff ||
  c.toNat == 0x1680 || (0x2000 <= c.toNat && c.toNat <= 0x200a) ||
  c.toNat == 0x2028 || c.toNat == 0x2029 || c.toNat == 0x202f ||
  c.toNat == 0x205f || c.toNat == 0x3000

/-- JS `String.prototype.trim`. -/
def jsTrim (s : String) : String :=
  ⟨((s.data.dropWhile jsWhitespace).reverse.dropWhile jsWhitespace).reverse⟩

/-- `List` prefix test used to model JS string predicates. -/
def listIsPrefix : List Char → List Char → Bool
  | [], _ => true
  | _ :: _, [] => false
  | a :: as, b :: bs => a == b && listIsPrefix as bs

/-- `List` infix test used to model JS `String.prototype.includes`. -/
def listIsInfix (p : List Char) : List Char → Bool
  | [] => listIsPrefix p []
  | c :: rest => listIsPrefix p (c :: rest) || listIsInfix p rest

/-- JS `s.includes(pat)`. -/
def jsIncludes (s pat : String) : Bool :=
  listIsInfix pat.data s.data

/-- JS `s.startsWith(pat)`. -/
def jsStartsWith (s pat : String) : Bool :=
  listIsPrefix pat.data s.data

/-- JS `String.prototype.toLowerCase`, modelled on ASCII letters. -/
def jsToLower (s : String) : String :=
  ⟨s.data.map Char.toLower⟩

/-- `ensureGlobalPrefix` (App.vue lines 104-111): trim the name and prepend
`"Global "` unless the trimmed name already starts with `"global"`
case-insensitively. -/
def ensureGlobalPrefix (name : String) : String :=
  let trimmed := jsTrim name
  let lower := jsToLower trimmed
  if jsStartsWith lower "global" then trimmed
  else "Global " ++ trimmed

/-- One global pass of `normalized.replace(/~([^\s])/g, "~ $1")`:
every `~` directly followed by a non-whitespace character gets a space
inserted after it; matches are non-overlapping, left to right. -/
def repTildeAfter : List Char → List Char
  | [] => []
  | '~' :: c :: rest =>
    if jsWhitespace c then '~' :: repTildeAfter (c :: rest)
    else '~' :: ' ' :: c :: repTildeAfter rest
  | c :: rest => c :: repTildeAfter rest

/-- One global pass of `normalized.replace(/([^\s])~/g, "$1 ~")`:
every non-whitespace character directly followed by `~` gets a space
inserted between them; matches are non-overlapping, left to right. -/
def repTildeBefore : List Char → List Char
  | [] => []
  | c :: '~' :: rest =>
    if jsWhitespace c then c :: repTildeBefore ('~' :: rest)
    else c :: ' ' :: '~' :: repTildeBefore rest
  | c :: rest => c :: repTildeBefore rest

/-- `normalizeHttpqlQuery` (App.vue lines 113-121): all-whitespace input
collapses to `""`; otherwise the trimmed query has a space inserted around
each `~` that directly touches a non-whitespace character. -/
def normalizeHttpqlQuery (query : String) : String :=
  if (jsTrim query).length = 0 then ""
  else ⟨repTildeBefore (repTildeAfter (jsTrim query).data)⟩

example : normalizeHttpqlQuery "a~b" = "a ~ b" := by decide
example : ensureGlobalPrefix "GLOBAL bar" = "GLOBAL bar" := by decide
example : ensureGlobalPrefix "foo" = "Global foo" := by decide

/-- The editor rule model (frontend `Rule` type, App.vue lines 38-49, with
the backend relaxation of `section` to a plain string).  Freshly generated
ids (`Date.now()` plus a random suffix) are passed in explicitly where an
operation creates a rule, since they carry no logic. -/
structure Rule where
  id : String
  name : String
  «section» : String
  matcher : String
  value : String
  active : Bool
  matcherType : Option String
  replacerType : Option String
  condition : Option String
  workflowId : Option String
deriving DecidableEq, Repr

/-- A value an `.includes` call can be made on: a string
(`String.prototype.includes`, substring search) or an array
(`Array.prototype.includes`, element membership). -/
inductive Discr where
  | str (s : String)
  | arr (l : List JVal)

/-- JS `x.includes(pat)` for the two value shapes that have an `includes`
method: substring search on a string, SameValueZero element membership on
an array (only string elements can equal the string pattern). -/
def dIncludes (d : Discr) (pat : String) : Bool :=
  match d with
  | .str s => jsIncludes s pat
  | .arr l => l.any (fun v => match v with | .str t => t == pat | _ => false)

/-- Models the discriminator read
`(o.__typename as string) || (o.kind as string) || ""` followed directly by
a `.includes` call: the first truthy of the two fields is used; a truthy
string or array carries an `includes` method, while any other truthy value
(number, boolean, non-array object) makes the `.includes` call raise a
`TypeError` (`Except.error`); if both fields are falsy the discriminator
is `""`. -/
def discrOf (fs : List (String × JVal)) : Except Unit Discr :=
  match jget fs "__typename" with
  | some v =>
    if truthy v then
      match v with
      | .str s => .ok (.str s)
      | .arr l => .ok (.arr l)
      | _ => .error ()
    else
      match jget fs "kind" with
      | some w =>
        if truthy w then
          match w with
          | .str s => .ok (.str s)
          | .arr l => .ok (.arr l)
          | _ => .error ()
        else .ok (.str "")
      | none => .ok (.str "")
  | none =>
    match jget fs "kind" with
    | some w =>
      if truthy w then
        match w with
        | .str s => .ok (.str s)
        | .arr l => .ok (.arr l)
        | _ => .error ()
      else .ok (.str "")
    | none => .ok (.str "")

/-- The matcher branch of `parseGraphQLRule` (App.vue lines 354-419): given
the fields of a truthy `operation.matcher` object, returns the resulting
`(matcherType, matcher)` pair, starting from the initialised defaults
`("regex", "")`. -/
def parseMatcher (mf : List (String × JVal)) : Except Unit (String × String) := do
  let mk ← discrOf mf
  if dIncludes mk "MatcherRegex" || dIncludes mk "TamperMatcherRegex" then
    pure ("regex", (strField mf "regex").getD ((strField mf "name").getD ""))
  else if dIncludes mk "MatcherName" || dIncludes mk "TamperMatcherName" then
    pure ("regex", (strField mf "name").getD "")
  else if dIncludes mk "MatcherRawValue" || dIncludes mk "TamperMatcherRawValue" then
    pure ("string", (strField mf "value").getD "")
  else if dIncludes mk "MatcherRawFull" || dIncludes mk "TamperMatcherRawFull" then
    pure ("full", "")
  else if dIncludes mk "MatcherRaw" || dIncludes mk "TamperMatcherRaw" then
    match asObjTruthy (jget mf "raw") with
    | some rawf => do
      let rk ← discrOf rawf
      if dIncludes rk "MatcherRawRegex" || dIncludes rk "TamperMatcherRawRegex" then
        pure ("regex", (strField rawf "regex").getD "")
      else if dIncludes rk "MatcherRawValue" || dIncludes rk "TamperMatcherRawValue" then
        pure ("string", (strField rawf "value").getD "")
      else if dIncludes rk "MatcherRawFull" || dIncludes rk "TamperMatcherRawFull" then
        pure ("full", "")
      else pure ("regex", "")
    | none => pure ("regex", "")
  else
    match strField mf "regex" with
    | some s => pure ("regex", s)
    | none =>
      match strField mf "name" with
      | some s => pure ("regex", s)
      | none => pure ("regex", "")

/-- The replacer branch of `parseGraphQLRule` (App.vue lines 421-441): given
the fields of a truthy `operation.replacer` object, returns the resulting
`(replacerType, value, workflowId)` triple, starting from the initialised
defaults `("term", "", undefined)`. -/
def parseReplacer (rf : List (String × JVal)) :
    Except Unit (String × String × Option String) := do
  let rk ← discrOf rf
  if dIncludes rk "ReplacerTerm" || dIncludes rk "TamperReplacerTerm" then
    pure ("term", (strField rf "term").getD "", none)
  else if dIncludes rk "ReplacerWorkflow" || dIncludes rk "TamperReplacerWorkflow" then
    pure ("workflow", "", strField rf "workflowId")
  else pure ("term", "", none)

/-- The section-discriminator chain of `parseGraphQLRule`
(App.vue lines 341-349): first substring match wins, default
`"RequestHeader"`. -/
def pickSection (sk : Discr) : String :=
  if dIncludes sk "RequestHeader" then "RequestHeader"
  else if dIncludes sk "RequestBody" then "RequestBody"
  else if dIncludes sk "RequestMethod" then "RequestMethod"
  else if dIncludes sk "RequestPath" then "RequestPath"
  else if dIncludes sk "RequestQuery" then "RequestQuery"
  else if dIncludes sk "ResponseHeader" then "ResponseHeader"
  else if dIncludes sk "ResponseBody" then "ResponseBody"
  else if dIncludes sk "ResponseStatusCode" then "ResponseStatusCode"
  else "RequestHeader"

/-- The section/matcher/replacer core of `parseGraphQLRule`
(App.vue lines 331-443): the tuple is
`(sectionType, matcherType, matcher, replacerType, value, workflowId)`. -/
def sectionCoreOf (item : List (String × JVal)) :
    Except Unit (String × String × String × String × String × Option String) :=
  match asObjTruthy (jget item "section") with
  | none => .ok ("RequestHeader", "regex", "", "term", "", none)
  | some sf => do
    let sk ← discrOf sf
    let st := pickSection sk
    match asObjTruthy (jget sf "operation") with
    | none => pure (st, "regex", "", "term", "", none)
    | some opf => do
      let mm ← match asObjTruthy (jget opf "matcher") with
        | some mf => parseMatcher mf
        | none => pure ("regex", "")
      let rr ← match asObjTruthy (jget opf "replacer") with
        | some repf => parseReplacer repf
        | none => pure ("term", "", none)
      pure (st, mm.1, mm.2, rr.1, rr.2.1, rr.2.2)

/-- The condition fallback chain of `parseGraphQLRule`
(App.vue lines 445-450): a truthy string field with non-empty trim is
normalized; `condition` is consulted before `query`. -/
def condFrom (item : List (String × JVal)) (k : String) : Option String :=
  match jget item k with
  | some (.str s) =>
    if truthy (.str s) && (jsTrim s).length > 0 then some (normalizeHttpqlQuery s)
    else none
  | _ => none

/-- The active-flag fallback chain of `parseGraphQLRule`
(App.vue lines 452-461): first present boolean among
`active | enabled | enable | isEnabled`, default `true`. -/
def activeOf (item : List (String × JVal)) : Bool :=
  match jget item "active" with
  | some (.bool b) => b
  | _ =>
    match jget item "enabled" with
    | some (.bool b) => b
    | _ =>
      match jget item "enable" with
      | some (.bool b) => b
      | _ =>
        match jget item "isEnabled" with
        | some (.bool b) => b
        | _ => true

/-- The `name` read of `parseGraphQLRule` (App.vue line 328). -/
def nameOf (item : List (String × JVal)) : String :=
  (strField item "name").getD ""

/-- Assembles the returned `Rule` of `parseGraphQLRule`
(App.vue lines 463-474) from the parsed core tuple. -/
def assembleRule (item : List (String × JVal)) (name : String)
    (pc : String × String × String × String × String × Option String) : Rule :=
  { id := ""
    name := name
    «section» := pc.1
    matcher := pc.2.2.1
    value := pc.2.2.2.2.1
    active := activeOf item
    matcherType := some pc.2.1
    replacerType := some pc.2.2.2.1
    condition := some (((condFrom item "condition").orElse
      (fun _ => condFrom item "query")).getD "")
    workflowId := pc.2.2.2.2.2 }

/-- `parseGraphQLRule` (App.vue lines 326-478): returns `undefined` when the
`name` field is not a non-empty string, or when a `TypeError` raised while
probing discriminators is caught by the surrounding `try`; otherwise builds
an editor `Rule` with tolerant defaults. -/
def parseGraphQLRule (item : List (String × JVal)) : Option Rule :=
  if nameOf item = "" then none
  else
    match sectionCoreOf item with
    | .error _ => none
    | .ok pc => some (assembleRule item (nameOf item) pc)

/-- `buildMatcher` (App.vue lines 882-894): builds a raw host matcher object
from the editor matcher type; unknown types fall back to a regex matcher. -/
def buildMatcher (matcherType : Option String) (matcherValue : String) : JVal :=
  if matcherType = some "full" then
    .obj [("kind", .str "MatcherRawFull")]
  else if matcherType = some "regex" then
    .obj [("kind", .str "MatcherRawRegex"), ("regex", .str matcherValue)]
  else if matcherType = some "string" then
    .obj [("kind", .str "MatcherRawValue"), ("value", .str matcherValue)]
  else
    .obj [("kind", .str "MatcherRawRegex"), ("regex", .str matcherValue)]

/-- `buildReplacer` (App.vue lines 896-906): a workflow replacer needs
`replacerType === "workflow"` and a workflow id with non-empty trim;
everything else becomes a term replacer. -/
def buildReplacer (replacerType : Option String) (termValue : String)
    (workflowId : Option String) : JVal :=
  match replacerType, workflowId with
  | some "workflow", some w =>
    if (jsTrim w).length > 0 then
      .obj [("kind", .str "ReplacerWorkflow"), ("workflowId", .str w)]
    else .obj [("kind", .str "ReplacerTerm"), ("term", .str termValue)]
  | _, _ => .obj [("kind", .str "ReplacerTerm"), ("term", .str termValue)]

/-- The header/path/query matcher-value guard of `toSection`
(`r.matcher && r.matcher.trim().length > 0 ? r.matcher : ""`). -/
def matcherValueOf (m : String) : String :=
  if m ≠ "" ∧ (jsTrim m).length > 0 then m else ""

/-- `toSection` (App.vue lines 908-1046): translates an editor `Rule` to the
host section object; throws (`none`) when the rule has no section.  The two
`Invalid matcher/replacer` throws of the source can never fire because
`buildMatcher` and `buildReplacer` always return tagged objects, so they
are not modelled as failure outcomes. -/
def toSection (r : Rule) : Option JVal :=
  if r.«section» = "" then none
  else
    let matcherType := r.matcherType.getD "regex"
    let replacerType := r.replacerType.getD "term"
    let replacer := buildReplacer (some replacerType) r.value r.workflowId
    if r.«section» = "RequestHeader" then
      let matcherValue := matcherValueOf r.matcher
      if matcherType = "regex" ∨ matcherType = "string" ∨ matcherType = "full" then
        some (.obj [("kind", .str "SectionRequestHeader"),
          ("operation", .obj [("kind", .str "OperationHeaderRaw"),
            ("matcher", buildMatcher (some matcherType) matcherValue),
            ("replacer", replacer)])])
      else
        some (.obj [("kind", .str "SectionRequestHeader"),
          ("operation", .obj [("kind", .str "OperationHeaderUpdate"),
            ("matcher", .obj [("kind", .str "MatcherName"), ("name", .str matcherValue)]),
            ("replacer", replacer)])])
    else if r.«section» = "RequestBody" then
      some (.obj [("kind", .str "SectionRequestBody"),
        ("operation", .obj [("kind", .str "OperationBodyRaw"),
          ("raw", .obj [("matcher", buildMatcher (some matcherType) r.matcher),
            ("replacer", replacer)])])])
    else if r.«section» = "RequestMethod" then
      some (.obj [("kind", .str "SectionRequestMethod"),
        ("operation", .obj [("kind", .str "OperationMethodUpdate"),
          ("replacer", replacer)])])
    else if r.«section» = "RequestPath" then
      some (.obj [("kind", .str "SectionRequestPath"),
        ("operation", .obj [("kind", .str "OperationPathUpdate"),
          ("matcher", .obj [("kind", .str "MatcherName"),
            ("name", .str (matcherValueOf r.matcher))]),
          ("replacer", replacer)])])
    else if r.«section» = "RequestQuery" then
      some (.obj [("kind", .str "SectionRequestQuery"),
        ("operation", .obj [("kind", .str "OperationQueryUpdate"),
          ("matcher", .obj [("kind", .str "MatcherName"),
            ("name", .str (matcherValueOf r.matcher))]),
          ("replacer", replacer)])])
    else if r.«section» = "ResponseHeader" then
      let matcherValue := matcherValueOf r.matcher
      if matcherType = "regex" ∨ matcherType = "string" ∨ matcherType = "full" then
        some (.obj [("kind", .str "SectionResponseHeader"),
          ("operation", .obj [("kind", .str "OperationHeaderRaw"),
            ("matcher", buildMatcher (some matcherType) matcherValue),
            ("replacer", replacer)])])
      else
        some (.obj [("kind", .str "SectionResponseHeader"),
          ("operation", .obj [("kind", .str "OperationHeaderUpdate"),
            ("matcher", .obj [("kind", .str "MatcherName"), ("name", .str matcherValue)]),
            ("replacer", replacer)])])
    else if r.«section» = "ResponseBody" then
      some (.obj [("kind", .str "SectionResponseBody"),
        ("operation", .obj [("kind", .str "OperationBodyRaw"),
          ("matcher", buildMatcher (some matcherType) r.matcher),
          ("replacer", replacer)])])
    else
      some (.obj [("kind", .str "SectionResponseStatusCode"),
        ("operation", .obj [("kind", .str "OperationStatusCodeUpdate"),
          ("replacer", replacer)])])

/-- Field of the `operation` object of a built section. -/
def opFieldOf (sec : JVal) (k : String) : Option JVal :=
  match sec with
  | .obj sf =>
    match jget sf "operation" with
    | some (.obj opf) => jget opf k
    | _ => none
  | _ => none

/-- Discriminator string of the `operation` object of a built section. -/
def opKindOf (sec : JVal) : Option String :=
  match opFieldOf sec "kind" with
  | some (.str s) => some s
  | _ => none

/-- Field of the `operation.raw` wrapper of a built section. -/
def rawFieldOf (sec : JVal) (k : String) : Option JVal :=
  match opFieldOf sec "raw" with
  | some (.obj rawf) => jget rawf k
  | _ => none

/-- C7: `ensureGlobalPrefix` satisfies the three documented examples, the
prefix check is case-insensitive, and the original casing of the (trimmed)
input is preserved whenever the check succeeds. -/
theorem ensureGlobalPrefix_examples :
    ensureGlobalPrefix "Global Foo" = "Global Foo" ∧
    ensureGlobalPrefix "foo" = "Global foo" ∧
    ensureGlobalPrefix "GLOBAL bar" = "GLOBAL bar" ∧
    (∀ name : String, jsStartsWith (jsToLower (jsTrim name)) "global" = true →
      ensureGlobalPrefix name = jsTrim name) := by
  refine ⟨by decide, by decide, by decide, ?_⟩
  intro name h
  unfold ensureGlobalPrefix
  simp [h]

/-- Witness for C7: the case-insensitive clause applied at `"GLOBAL bar"`. -/
theorem ensureGlobalPrefix_examples_witness :
    ensureGlobalPrefix "GLOBAL bar" = jsTrim "GLOBAL bar" :=
  ensureGlobalPrefix_examples.2.2.2 "GLOBAL bar" (by decide)

/-- C10: the `"global"` check of `ensureGlobalPrefix` is a plain
case-insensitive `startsWith` with no word-boundary requirement
(`"globalization"` is returned unchanged), and `"Global "` is prepended
exactly when that check fails. -/
theorem ensureGlobalPrefix_startsWith_no_boundary :
    ensureGlobalPrefix "globalization" = "globalization" ∧
    (∀ name : String, jsStartsWith (jsToLower (jsTrim name)) "global" = true →
      ensureGlobalPrefix name = jsTrim name) ∧
    (∀ name : String, jsStartsWith (jsToLower (jsTrim name)) "global" = false →
      ensureGlobalPrefix name = "Global " ++ jsTrim name) := by
  refine ⟨by decide, ?_, ?_⟩ <;> intro name h <;> unfold ensureGlobalPrefix <;> simp [h]

/-- Witness for C10: the prepend clause applied at `"foo"`. -/
theorem ensureGlobalPrefix_startsWith_no_boundary_witness :
    ensureGlobalPrefix "foo" = "Global " ++ jsTrim "foo" :=
  ensureGlobalPrefix_startsWith_no_boundary.2.2 "foo" (by decide)

/-- C8: `normalizeHttpqlQuery "a~b"` inserts a space on each side of the
tilde, and every input made of whitespace only normalizes to `""`. -/
theorem normalizeHttpqlQuery_tilde_whitespace :
    normalizeHttpqlQuery "a~b" = "a ~ b" ∧
    (∀ q : String, (∀ c ∈ q.data, jsWhitespace c = true) →
      normalizeHttpqlQuery q = "") := by
  refine ⟨by decide, ?_⟩
  intro q h
  have ht : jsTrim q = "" := by
    unfold jsTrim
    rw [List.dropWhile_eq_nil_iff.mpr h]
    rfl
  unfold normalizeHttpqlQuery
  rw [ht]
  rfl

/-- Witness for C8: the all-whitespace clause applied at a two-space
string. -/
theorem normalizeHttpqlQuery_tilde_whitespace_witness :
    normalizeHttpqlQuery "  " = "" :=
  normalizeHttpqlQuery_tilde_whitespace.2 "  " (by decide)

/-- C2: a `RequestBody` rule always becomes an `OperationBodyRaw` with
matcher and replacer nested under a `raw` wrapper (and no direct
matcher/replacer fields); a `ResponseBody` rule always becomes an
`OperationBodyRaw` with matcher and replacer as direct siblings (and no
`raw` wrapper); no other section ever produces an `OperationBodyRaw`. -/
theorem toSection_body_asymmetry :
    ∀ r sec, toSection r = some sec →
      (r.«section» = "RequestBody" →
        opKindOf sec = some "OperationBodyRaw" ∧
        rawFieldOf sec "matcher" =
          some (buildMatcher (some (r.matcherType.getD "regex")) r.matcher) ∧
        rawFieldOf sec "replacer" =
          some (buildReplacer (some (r.replacerType.getD "term")) r.value r.workflowId) ∧
        opFieldOf sec "matcher" = none ∧ opFieldOf sec "replacer" = none) ∧
      (r.«section» = "ResponseBody" →
        opKindOf sec = some "OperationBodyRaw" ∧
        opFieldOf sec "matcher" =
          some (buildMatcher (some (r.matcherType.getD "regex")) r.matcher) ∧
        opFieldOf sec "replacer" =
          some (buildReplacer (some (r.replacerType.getD "term")) r.value r.workflowId) ∧
        opFieldOf sec "raw" = none) ∧
      (r.«section» ≠ "RequestBody" → r.«section» ≠ "ResponseBody" →
        opKindOf sec ≠ some "OperationBodyRaw") := by
  intro r sec h
  simp only [toSection] at h
  split_ifs at h <;>
    (try injection h with h) <;> subst h <;>
    refine ⟨fun hs => ?_, fun hs => ?_, fun hs1 hs2 => ?_⟩ <;>
    simp_all [opKindOf, opFieldOf, rawFieldOf, jget]

/-- A concrete `RequestBody` editor rule used to evaluate C2. -/
def demoRequestBodyRule : Rule :=
  ⟨"i", "n", "RequestBody", "m", "v", true, some "regex", some "term", some "", none⟩

/-- Witness for C2: the `RequestBody` clause evaluated at a concrete rule. -/
theorem toSection_body_asymmetry_witness :
    opKindOf ((toSection demoRequestBodyRule).getD .null) = some "OperationBodyRaw" :=
  ((toSection_body_asymmetry demoRequestBodyRule
    ((toSection demoRequestBodyRule).getD .null) rfl).1 rfl).1

/-- A named collection of editor rules (frontend `Collection` type,
App.vue lines 51-55). -/
structure Collection where
  id : String
  name : String
  rules : List Rule
deriving DecidableEq, Repr

/-- The collection-store state: the ordered collection list plus the
selected-collection pointer (`collections` / `selectedCollectionId` refs,
App.vue lines 72-73). -/
structure StoreState where
  collections : List Collection
  selectedCollectionId : Option String
deriving DecidableEq, Repr

/-- Outcome reported by `deleteCollection` to the user. -/
inductive DeleteOutcome where
  | rejectedLastCollection
  | notFound
  | deleted
deriving DecidableEq, Repr

/-- `deleteCollection` (App.vue lines 237-254): refuses (error toast, state
untouched) when at most one collection remains; otherwise removes every
collection carrying the id and moves the selection to the new first
collection when the deleted one was selected. -/
def deleteCollection (s : StoreState) (collectionId : String) :
    StoreState × DeleteOutcome :=
  if s.collections.length ≤ 1 then (s, .rejectedLastCollection)
  else
    match s.collections.find? (fun c => c.id == collectionId) with
    | none => (s, .notFound)
    | some _ =>
      let cols := s.collections.filter (fun c => c.id ≠ collectionId)
      let sel :=
        if s.selectedCollectionId = some collectionId then cols.head?.map (·.id)
        else s.selectedCollectionId
      ({ collections := cols, selectedCollectionId := sel }, .deleted)

/-- `createCollection` (App.vue lines 216-235): rejects blank names, else
appends a fresh collection (name run through `ensureGlobalPrefix`, id
generated at the call site and passed here explicitly) and selects it. -/
def createCollection (s : StoreState) (newName freshId : String) :
    StoreState × Bool :=
  if (jsTrim newName).length = 0 then (s, false)
  else
    ({ collections :=
        s.collections ++ [{ id := freshId, name := ensureGlobalPrefix newName, rules := [] }]
       selectedCollectionId := some freshId }, true)

/-- `switchCollection` (App.vue lines 256-261): no-op on a falsy id. -/
def switchCollection (s : StoreState) (collectionId : Option String) : StoreState :=
  match collectionId with
  | some cid =>
    if cid = "" then s else { s with selectedCollectionId := some cid }
  | none => s

/-- `collections.value.find(...)` followed by in-place mutation: updates the
rules of the first collection whose id matches. -/
def updateFirstCollection (cs : List Collection) (cid : String)
    (f : List Rule → List Rule) : List Collection :=
  match cs with
  | [] => []
  | c :: rest =>
    if c.id = cid then { c with rules := f c.rules } :: rest
    else c :: updateFirstCollection rest cid f

/-- The shared selected-collection guard of the rule operations
(`if (selectedCollectionId.value) { const collection = ...find(...) }`). -/
def withSelectedCollection (s : StoreState) (f : List Rule → List Rule) : StoreState :=
  match s.selectedCollectionId with
  | some scid =>
    if scid = "" then s
    else { s with collections := updateFirstCollection s.collections scid f }
  | none => s

/-- `removeRule` (App.vue lines 267-275): filters the rule out of the
selected collection. -/
def removeRule (s : StoreState) (id : String) : StoreState :=
  withSelectedCollection s (fun rules => rules.filter (fun r => r.id ≠ id))

/-- The in-place rule mutation of `toggleActive`
(`collection.rules.find(...)` then `rule.active = value`): sets `active` on
the first rule carrying the id. -/
def setFirstActive : List Rule → String → Bool → List Rule
  | [], _, _ => []
  | r :: rest, id, v =>
    if r.id = id then { r with active := v } :: rest
    else r :: setFirstActive rest id v

/-- `toggleActive` (App.vue lines 277-288). -/
def toggleActive (s : StoreState) (id : String) (value : Bool) : StoreState :=
  withSelectedCollection s (fun rules => setFirstActive rules id value)

/-- The in-place rename of `saveRuleName` (`findIndex` then assignment):
renames the first rule carrying the id. -/
def setFirstName : List Rule → String → String → List Rule
  | [], _, _ => []
  | r :: rest, id, nm =>
    if r.id = id then { r with name := nm } :: rest
    else r :: setFirstName rest id nm

/-- `saveRuleName` (App.vue lines 300-318): renames the rule only when the
pending edited name has a non-empty trim and the rule exists in the
selected collection; otherwise the edit is cancelled and the state kept. -/
def saveRuleName (s : StoreState) (ruleId editingRuleName : String) : StoreState :=
  withSelectedCollection s (fun rules =>
    if (rules.findIdx? (fun r => r.id == ruleId)).isSome ∧
        (jsTrim editingRuleName).length > 0 then
      setFirstName rules ruleId (jsTrim editingRuleName)
    else rules)

/-- `updateFirstCollection` never changes the length of the list. -/
theorem updateFirstCollection_length (cs : List Collection) (cid : String)
    (f : List Rule → List Rule) :
    (updateFirstCollection cs cid f).length = cs.length := by
  induction cs with
  | nil => rfl
  | cons c rest ih =>
    unfold updateFirstCollection
    split
    · rfl
    · simpa using ih

/-- `withSelectedCollection` never changes the number of collections. -/
theorem withSelectedCollection_length (s : StoreState) (f : List Rule → List Rule) :
    (withSelectedCollection s f).collections.length = s.collections.length := by
  unfold withSelectedCollection
  rcases s.selectedCollectionId with _ | scid
  · rfl
  · dsimp only
    split
    · rfl
    · exact updateFirstCollection_length _ _ _

/-- C3 (amended): deleting when exactly one collection remains leaves the
whole store (collection list and selection pointer) unchanged and reports
the user-visible rejection; and, provided the collection ids are pairwise
distinct, every store operation preserves the invariant that at least one
collection exists.  (Distinctness is needed because `deleteCollection`
filters out every collection carrying the requested id.) -/
theorem store_minimum_one_invariant :
    (∀ s cid, s.collections.length = 1 →
      deleteCollection s cid = (s, .rejectedLastCollection)) ∧
    (∀ s cid, (s.collections.map Collection.id).Nodup → s.collections ≠ [] →
      ((deleteCollection s cid).1).collections ≠ []) ∧
    (∀ s newName freshId, s.collections ≠ [] →
      ((createCollection s newName freshId).1).collections ≠ []) ∧
    (∀ s cid, s.collections ≠ [] → (switchCollection s cid).collections ≠ []) ∧
    (∀ s rid, s.collections ≠ [] → (removeRule s rid).collections ≠ []) ∧
    (∀ s rid v, s.collections ≠ [] → (toggleActive s rid v).collections ≠ []) ∧
    (∀ s rid nm, s.collections ≠ [] → (saveRuleName s rid nm).collections ≠ []) := by
  have hwith : ∀ s f, s.collections ≠ [] → (withSelectedCollection s f).collections ≠ [] := by
    intro s f h
    have := withSelectedCollection_length s f
    intro hc
    rw [hc] at this
    exact h (List.length_eq_zero.mp this.symm)
  refine ⟨?_, ?_, ?_, ?_, ?_, ?_, ?_⟩
  · intro s cid h1
    unfold deleteCollection
    rw [if_pos (by omega)]
  · intro s cid hnd hne
    unfold deleteCollection
    split
    · exact hne
    · rename_i hlen
      split
      · exact hne
      · intro hc
        simp only at hc
        have hall := List.filter_eq_nil_iff.mp hc
        rcases hcol : s.collections with _ | ⟨a, _ | ⟨b, t⟩⟩
        · exact hne hcol
        · exact hlen (by rw [hcol]; simp)
        · rw [hcol] at hall hnd
          have ha : a.id = cid := by simpa using hall a (by simp)
          have hb : b.id = cid := by simpa using hall b (by simp)
          rw [List.map_cons, List.map_cons, List.nodup_cons] at hnd
          exact hnd.1 (by rw [ha, ← hb]; exact List.mem_cons_self _ _)
  · intro s newName freshId hne
    unfold createCollection
    split
    · exact hne
    · simp
  · intro s cid hne
    unfold switchCollection
    rcases cid with _ | c
    · exact hne
    · dsimp only
      split
      · exact hne
      · exact hne
  · intro s rid hne
    exact hwith _ _ hne
  · intro s rid v hne
    exact hwith _ _ hne
  · intro s rid nm hne
    exact hwith _ _ hne

/-- A store whose two collections accidentally share an id. -/
def dupIdStore : StoreState :=
  ⟨[⟨"x", "Global A", []⟩, ⟨"x", "Global B", []⟩], some "x"⟩

/-- Counterexample to C3 as stated: over arbitrary store states the
minimum-one invariant is not preserved — `deleteCollection` filters out
every collection carrying the id, so a store of two collections sharing an
id is emptied completely by one delete. -/
theorem deleteCollection_empties_dup_id_store :
    dupIdStore.collections ≠ [] ∧
    ((deleteCollection dupIdStore "x").1).collections = [] := by
  exact ⟨by decide, rfl⟩

/-- A store holding exactly one collection. -/
def singletonStore : StoreState :=
  ⟨[⟨"g", "Global Template", []⟩], some "g"⟩

/-- Witness for C3: the last-collection rejection clause evaluated on a
concrete one-collection store. -/
theorem store_minimum_one_invariant_witness :
    deleteCollection singletonStore "g" =
      (singletonStore, .rejectedLastCollection) :=
  store_minimum_one_invariant.1 singletonStore "g" (by decide)

/-- A host-side match/replace collection as listed by
`sdk.matchReplace.getCollections()` (only the fields the sync loop reads). -/
structure HostCollection where
  id : String
  name : String
deriving DecidableEq, Repr

/-- One host-API call issued by the sync loop, in program order. -/
inductive HostAction where
  | delCollection (id : String)
  | newCollection (name : String)
  | newRule (name query : String) («section» : JVal)
  | toggleRule (active : Bool)

/-- Whether an action is a collection-level host call. -/
def isCollectionAction : HostAction → Bool
  | .delCollection _ => true
  | .newCollection _ => true
  | _ => false

/-- Models `"kind" in x` after a `x && typeof x === "object"` guard on a
matcher/replacer slot of a built operation (App.vue lines 1149-1174). -/
def checkTagged : Option JVal → Bool
  | some (.obj fs) => hasField fs "kind"
  | _ => false

/-- The defensive structure checks the sync loop runs on a translated
section before calling the host (App.vue lines 1126-1183): the section and
its operation must be tagged objects, and an `OperationBodyRaw` must carry
tagged matcher/replacer either under a truthy `raw` wrapper or as direct
siblings. -/
def ruleSectionChecks (sec : JVal) : Bool :=
  match sec with
  | .obj sf =>
    match jget sf "operation" with
    | none => false
    | some op =>
      hasField sf "kind" &&
      (truthy op && (match op with | .obj _ => true | .arr _ => true | _ => false)) &&
      (match op with
       | .obj opf =>
         if (match jget opf "kind" with
             | some (.str s) => s == "OperationBodyRaw"
             | _ => false) then
           match jget opf "raw" with
           | some raw =>
             if truthy raw then
               match raw with
               | .obj rawf =>
                 checkTagged (jget rawf "matcher") && checkTagged (jget rawf "replacer")
               | _ => false
             else
               if hasField opf "matcher" && hasField opf "replacer" then
                 checkTagged (jget opf "matcher") && checkTagged (jget opf "replacer")
               else false
           | none =>
             if hasField opf "matcher" && hasField opf "replacer" then
               checkTagged (jget opf "matcher") && checkTagged (jget opf "replacer")
             else false
         else hasField opf "kind"
       | _ => false)
  | _ => false

/-- The query passed to `createRule`
(`r.condition !== undefined && r.condition.trim().length > 0 ? r.condition : ""`). -/
def queryOf (r : Rule) : String :=
  match r.condition with
  | some c => if (jsTrim c).length > 0 then c else ""
  | none => ""

/-- One iteration of the per-rule sync loop (App.vue lines 1117-1203):
`none` when the rule is skipped (missing section or name, failed
translation, failed structure checks, or a host-API error, the latter
abstracted by the `apiOk` oracle); otherwise the host calls it issues. -/
def processRule (apiOk : Rule → Bool) (r : Rule) : Option (List HostAction) :=
  if r.«section» = "" ∨ r.name = "" then none
  else
    match toSection r with
    | none => none
    | some sec =>
      if ruleSectionChecks sec then
        if apiOk r then
          some [.newRule (if r.name ≠ "" then r.name else r.«section») (queryOf r) sec,
                .toggleRule r.active]
        else none
      else none

/-- The whole per-rule loop over a collection: accumulated host calls and
the `ruleCount` the loop reports. -/
def syncRules (apiOk : Rule → Bool) (rules : List Rule) : List HostAction × Nat :=
  rules.foldl
    (fun acc r =>
      match processRule apiOk r with
      | some as => (acc.1 ++ as, acc.2 + 1)
      | none => acc)
    ([], 0)

/-- Per-collection body of `onSyncToSelected` (App.vue lines 1098-1206):
empty collections and blank names are skipped before any host call; a
surviving collection first deletes the same-named host collection when one
exists, then creates a fresh one, then runs the rule loop. -/
def syncCollection (existing : List HostCollection) (apiOk : Rule → Bool)
    (c : Collection) : List HostAction × Nat :=
  if c.rules.length = 0 then ([], 0)
  else
    let name := jsTrim c.name
    if name.length = 0 then ([], 0)
    else
      let pre :=
        (match existing.find? (fun e => e.name == name) with
         | some e => [HostAction.delCollection e.id]
         | none => []) ++ [HostAction.newCollection name]
      let rs := syncRules apiOk c.rules
      (pre ++ rs.1, rs.2)

/-- `buildMatcher` always returns a tagged object. -/
theorem buildMatcher_tagged (mt : Option String) (v : String) :
    checkTagged (some (buildMatcher mt v)) = true := by
  unfold buildMatcher
  split_ifs <;> rfl

/-- `buildReplacer` always returns a tagged object. -/
theorem buildReplacer_tagged (rt : Option String) (v : String) (wf : Option String) :
    checkTagged (some (buildReplacer rt v wf)) = true := by
  unfold buildReplacer
  split
  · split_ifs <;> rfl
  · rfl

/-- `toSection` succeeds on every rule with a section. -/
theorem toSection_isSome (r : Rule) (h : r.«section» ≠ "") :
    ∃ sec, toSection r = some sec := by
  simp only [toSection, if_neg h]
  split_ifs <;> exact ⟨_, rfl⟩

/-- Every section built by `toSection` passes the defensive structure
checks of the sync loop, so the checks never cause a skip. -/
theorem toSection_passes_checks :
    ∀ r sec, toSection r = some sec → ruleSectionChecks sec = true := by
  intro r sec h
  simp only [toSection] at h
  split_ifs at h <;> (try injection h with h) <;> subst h <;>
    simp [ruleSectionChecks, jget, hasField, buildMatcher_tagged,
      buildReplacer_tagged, truthy]

/-- The skip/continue behaviour of one rule iteration, characterised: a rule
is counted exactly when it has a section and a name and its host calls
succeed; the structure checks and the translation never fail on their
own. -/
theorem processRule_isSome (apiOk : Rule → Bool) (r : Rule) :
    (processRule apiOk r).isSome =
      (!(r.«section» == "") && !(r.name == "") && apiOk r) := by
  unfold processRule
  by_cases h1 : r.«section» = "" ∨ r.name = ""
  · rw [if_pos h1]
    rcases h1 with h | h <;> simp [h]
  · rw [if_neg h1]
    push_neg at h1
    obtain ⟨hsec, hname⟩ := h1
    obtain ⟨sec, hs⟩ := toSection_isSome r hsec
    rw [hs]
    dsimp only
    rw [toSection_passes_checks r sec hs]
    cases hap : apiOk r <;> simp [hap, hsec, hname]

/-- The rule-loop counter, generalised over the accumulator. -/
theorem syncRules_count_aux (apiOk : Rule → Bool) (rules : List Rule) :
    ∀ acc : List HostAction × Nat,
      (rules.foldl
        (fun acc r =>
          match processRule apiOk r with
          | some as => (acc.1 ++ as, acc.2 + 1)
          | none => acc) acc).2 =
      acc.2 + (rules.filter
        (fun r => !(r.«section» == "") && !(r.name == "") && apiOk r)).length := by
  induction rules with
  | nil => intro acc; simp
  | cons r rest ih =>
    intro acc
    rw [List.foldl_cons, List.filter_cons]
    have hiso := processRule_isSome apiOk r
    cases hp : processRule apiOk r with
    | some as =>
      rw [hp] at hiso
      simp only [Option.isSome_some] at hiso
      rw [← hiso]
      simp only [if_true]
      rw [ih]
      simp [Nat.add_comm, Nat.add_assoc, Nat.add_left_comm]
    | none =>
      rw [hp] at hiso
      simp only [Option.isSome_none] at hiso
      rw [← hiso]
      simp only [Bool.false_eq_true, if_false]
      exact ih acc

/-- A simple active rule for sync batches. -/
def batchRule (id nm sect : String) : Rule :=
  ⟨id, nm, sect, "m", "v", true, some "regex", some "term", some "", none⟩

/-- A batch of five rules whose third rule has no `section`. -/
def fiveRuleBatch : List Rule :=
  [batchRule "1" "r1" "RequestHeader",
   batchRule "2" "r2" "RequestBody",
   batchRule "3" "r3" "",
   batchRule "4" "r4" "ResponseBody",
   batchRule "5" "r5" "ResponseStatusCode"]

/-- C5: the per-rule sync loop skips exactly the rules that miss a section
or a name or whose host calls fail, and keeps counting the remaining
rules of the batch; in particular a batch of five rules whose third rule
has no section reports four synced rules instead of aborting. -/
theorem syncRules_partial_failure_isolation :
    (∀ (apiOk : Rule → Bool) (rules : List Rule),
      (syncRules apiOk rules).2 =
        (rules.filter
          (fun r => !(r.«section» == "") && !(r.name == "") && apiOk r)).length) ∧
    (syncRules (fun _ => true) fiveRuleBatch).2 = 4 := by
  constructor
  · intro apiOk rules
    unfold syncRules
    rw [syncRules_count_aux]
    simp
  · decide

/-- The host calls of one counted rule are rule-level only. -/
theorem processRule_actions_rule_level (apiOk : Rule → Bool) (r : Rule)
    (as : List HostAction) (hp : processRule apiOk r = some as) :
    as.all (fun a => !(isCollectionAction a)) = true := by
  unfold processRule at hp
  by_cases h1 : r.«section» = "" ∨ r.name = ""
  · rw [if_pos h1] at hp; cases hp
  · rw [if_neg h1] at hp
    cases ht : toSection r with
    | none => rw [ht] at hp; cases hp
    | some sec =>
      rw [ht] at hp
      dsimp only at hp
      split_ifs at hp <;>
        first
          | (injection hp with hp; subst hp; rfl)
          | cases hp

/-- The rule loop issues only rule-level host calls, generalised over the
accumulator. -/
theorem syncRules_no_collection_calls_aux (apiOk : Rule → Bool) (rules : List Rule) :
    ∀ acc : List HostAction × Nat,
      acc.1.all (fun a => !(isCollectionAction a)) = true →
      ((rules.foldl
        (fun acc r =>
          match processRule apiOk r with
          | some as => (acc.1 ++ as, acc.2 + 1)
          | none => acc) acc).1.all (fun a => !(isCollectionAction a))) = true := by
  induction rules with
  | nil => intro acc h; simpa using h
  | cons r rest ih =>
    intro acc h
    rw [List.foldl_cons]
    cases hp : processRule apiOk r with
    | some as =>
      apply ih
      rw [List.all_append]
      exact And.intro h (processRule_actions_rule_level apiOk r as hp) |>
        (fun ⟨a, b⟩ => by rw [a, b]; rfl)
    | none => exact ih acc h

/-- The rule loop issues only rule-level host calls. -/
theorem syncRules_no_collection_calls (apiOk : Rule → Bool) (rules : List Rule) :
    ((syncRules apiOk rules).1.all (fun a => !(isCollectionAction a))) = true := by
  unfold syncRules
  exact syncRules_no_collection_calls_aux apiOk rules ([], 0) rfl

/-- C4: a local collection with at least one rule and a non-empty trimmed
name first deletes the host collection whose name equals the trimmed local
name exactly (when one exists) and then creates a fresh host collection
with that name, before any rule-level call; a collection with zero rules or
a whitespace-only name is skipped with no host call at all. -/
theorem syncCollection_replace_by_name :
    ∀ (existing : List HostCollection) (apiOk : Rule → Bool) (c : Collection),
      ((c.rules = [] ∨ jsTrim c.name = "") →
        syncCollection existing apiOk c = ([], 0)) ∧
      (c.rules ≠ [] → jsTrim c.name ≠ "" →
        (syncCollection existing apiOk c).1 =
          (match existing.find? (fun e => e.name == jsTrim c.name) with
           | some e => [HostAction.delCollection e.id]
           | none => []) ++
          HostAction.newCollection (jsTrim c.name) :: (syncRules apiOk c.rules).1 ∧
        ((syncRules apiOk c.rules).1.all (fun a => !(isCollectionAction a))) = true) := by
  intro existing apiOk c
  constructor
  · intro h
    unfold syncCollection
    rcases h with h | h
    · rw [if_pos (by rw [h]; rfl)]
    · rw [h]
      by_cases hr : c.rules.length = 0
      · rw [if_pos hr]
      · rw [if_neg hr]
        rfl
  · intro hr hn
    unfold syncCollection
    rw [if_neg (fun h0 => hr (List.length_eq_zero.mp h0))]
    dsimp only
    rw [if_neg (fun h0 => hn (by
      cases hjt : jsTrim c.name with
      | mk l =>
        rw [hjt] at h0
        cases l with
        | nil => rfl
        | cons a t => cases h0))]
    refine ⟨?_, syncRules_no_collection_calls apiOk c.rules⟩
    cases existing.find? (fun e => e.name == jsTrim c.name) <;> simp

/-- A host-side collection list holding one collection named exactly like
the demo local collection after trimming. -/
def demoExisting : List HostCollection := [⟨"h1", "Global X"⟩]

/-- A local collection with one rule and a name that trims to the name of
the existing host collection. -/
def demoLocalCollection : Collection :=
  ⟨"c1", " Global X ", [batchRule "1" "r1" "RequestHeader"]⟩

/-- Witness for C4: the replace-by-name clause evaluated on the demo
collection against the demo host state. -/
theorem syncCollection_replace_by_name_witness :
    (syncCollection demoExisting (fun _ => true) demoLocalCollection).1 =
      (match demoExisting.find?
          (fun e => e.name == jsTrim demoLocalCollection.name) with
       | some e => [HostAction.delCollection e.id]
       | none => []) ++
      HostAction.newCollection (jsTrim demoLocalCollection.name) ::
      (syncRules (fun _ => true) demoLocalCollection.rules).1 ∧
    ((syncRules (fun _ => true) demoLocalCollection.rules).1.all
      (fun a => !(isCollectionAction a))) = true :=
  (syncCollection_replace_by_name demoExisting (fun _ => true) demoLocalCollection).2
    (by decide) (by decide)

/-- The backend `Result<T>` union (backend `index.ts`). -/
inductive JResult (α : Type) where
  | ok (value : α)
  | err (error : String)

/-- Backend `getCollections` (backend index.ts lines 66-84), with the SQL
read and `JSON.parse` abstracted into the argument: `none` is a missing
database row (`Ok []`), `some none` a stored string that fails to parse
(`Error`), and `some (some v)` a stored string parsing to `v`, which is
returned as-is — the parsed value is cast, never validated. -/
def getCollectionsModel (stored : Option (Option JVal)) : JResult JVal :=
  match stored with
  | none => .ok (.arr [])
  | some none => .err "Failed to read collections"
  | some (some v) => .ok v

/-- `createDefaultCollection` (App.vue lines 123-127) as the JS object the
loaded store holds; the `Date.now()` id is passed explicitly. -/
def defaultCollectionJ (did : String) : JVal :=
  .obj [("id", .str did), ("name", .str "Global Template"), ("rules", .arr [])]

/-- The frontend state after `load`: the `collections` ref holds whatever
JS value was assigned to it, the selection ref holds a JS value or
`undefined`. -/
structure LoadedStore where
  collections : JVal
  selectedCollectionId : Option JVal

/-- Models `v.length > 0`: array and string lengths work, `null` raises a
`TypeError`, any other value gives `undefined > 0`, which is `false`. -/
def jsLenPos : JVal → Except Unit Bool
  | .null => .error ()
  | .arr l => .ok (decide (0 < l.length))
  | .str s => .ok (decide (0 < s.length))
  | _ => .ok false

/-- Models `collections.value[0].id`: reading `id` off the first array
element (a `null` element raises), or off the first character of a string
(always `undefined`). -/
def elem0Id : JVal → Except Unit (Option JVal)
  | .arr (.null :: _) => .error ()
  | .arr (.obj fs :: _) => .ok (jget fs "id")
  | .arr (_ :: _) => .ok none
  | .arr [] => .ok none
  | _ => .ok none

/-- Models `collections.value.find((c) => c.id === s)` on an array:
a `null` element raises inside the callback; elements without a string
`id` simply do not match. -/
def findByIdList : List JVal → String → Except Unit (Option JVal)
  | [], _ => .ok none
  | e :: rest, s =>
    match e with
    | .null => .error ()
    | .obj fs =>
      match jget fs "id" with
      | some (.str t) => if t = s then .ok (some e) else findByIdList rest s
      | _ => findByIdList rest s
    | _ => findByIdList rest s

/-- Models `collections.value.find(...)`: calling `.find` on a non-array
raises a `TypeError`. -/
def jsFindCollection (cols : JVal) (s : String) : Except Unit (Option JVal) :=
  match cols with
  | .arr l => findByIdList l s
  | _ => .error ()

/-- Reads a property off a found element. -/
def objField (v : JVal) (k : String) : Option JVal :=
  match v with
  | .obj fs => jget fs k
  | _ => none

/-- The selection pipeline of `load` (App.vue lines 150-172) run against
the already-assigned `collections` value, starting from an undefined
selection ref (`load` runs once, on mount): the first-collection fallback,
the stored-selection lookup, and the final fallback. -/
def selectFrom (cols : JVal) (sr : JResult (Option String)) :
    Except Unit (Option JVal) := do
  let lp0 ← jsLenPos cols
  let sel0 : Option JVal ← if lp0 then elem0Id cols else pure none
  let sel1 : Option JVal ←
    match sr with
    | .ok (some s) =>
      if (jsTrim s).length > 0 then do
        let found ← jsFindCollection cols s
        match found with
        | some f => pure (objField f "id")
        | none => do
          let lp ← jsLenPos cols
          if lp then elem0Id cols else pure sel0
      else pure sel0
    | _ => pure sel0
  let lp2 ← jsLenPos cols
  if lp2 && !(match sel1 with | some v => truthy v | none => false) then elem0Id cols
  else pure sel1

/-- The body of `load` (App.vue lines 133-178) up to its `catch`: assign
the collections ref from the backend result (defaulting unless the value
has a positive `length`), then run the selection pipeline. -/
def loadCore (cr : JResult JVal) (sr : JResult (Option String)) (did : String) :
    Except Unit LoadedStore := do
  let cols : JVal ←
    match cr with
    | .ok v => do
      let lp ← jsLenPos v
      pure (if lp then v else .arr [ defaultCollectionJ did])
    | .err _ => pure (.arr [ defaultCollectionJ did])
  let sel ← selectFrom cols sr
  pure { collections := cols, selectedCollectionId := sel }

/-- `load` (App.vue lines 133-178): any `TypeError` raised while probing
the stored value is caught and replaced by the freshly seeded default
store, so no error ever propagates to the caller. -/
def loadModel (cr : JResult JVal) (sr : JResult (Option String)) (did : String) :
    LoadedStore :=
  match loadCore cr sr did with
  | .ok st => st
  | .error _ =>
    { collections := .arr [ defaultCollectionJ did]
      selectedCollectionId := some (.str did) }

/-- A stored blob is kept verbatim exactly when it has a positive
JS `length` without raising (a non-empty array, or a non-empty string). -/
def blobKept : JVal → Bool
  | .arr l => decide (0 < l.length)
  | .str s => decide (0 < s.length)
  | _ => false

/-- The collections-result shapes that seed the default store. -/
def seedsDefault : JResult JVal → Bool
  | .err _ => true
  | .ok v => !(blobKept v)

/-- Name of the first loaded collection, when there is one. -/
def firstCollectionNameOf (st : LoadedStore) : Option String :=
  match st.collections with
  | .arr (.obj fs :: _) => strField fs "name"
  | _ => none

/-- Running the selection pipeline over the freshly seeded default
collection list always selects the default collection id. -/
theorem selectFrom_default (sr : JResult (Option String)) (did : String) :
    selectFrom (.arr [ defaultCollectionJ did]) sr = .ok (some (.str did)) := by
  rcases sr with oval | e
  · rcases oval with _ | s
    · by_cases hd : did = "" <;>
        simp [selectFrom, jsLenPos, elem0Id, defaultCollectionJ, jget, truthy, hd,
          Bind.bind, Except.bind, pure, Except.pure]
    · by_cases hts : 0 < (jsTrim s).length
      · by_cases hds : did = s
        · subst hds
          by_cases hd : did = "" <;>
            simp [selectFrom, jsLenPos, elem0Id, defaultCollectionJ, jsFindCollection,
              findByIdList, jget, objField, truthy, hts, hd,
              Bind.bind, Except.bind, pure, Except.pure]
        · by_cases hd : did = ""
          · have hds2 : ("" = s) = False := by
              simp only [eq_iff_iff, iff_false]
              intro h
              exact hds (hd.trans h)
            simp [selectFrom, jsLenPos, elem0Id, defaultCollectionJ, jsFindCollection,
              findByIdList, jget, objField, truthy, hts, hds2, hd,
              Bind.bind, Except.bind, pure, Except.pure]
          · simp [selectFrom, jsLenPos, elem0Id, defaultCollectionJ, jsFindCollection,
              findByIdList, jget, objField, truthy, hts, hds, hd,
              Bind.bind, Except.bind, pure, Except.pure]
      · by_cases hd : did = "" <;>
          simp [selectFrom, jsLenPos, elem0Id, defaultCollectionJ, jsFindCollection,
            findByIdList, jget, objField, truthy, hts, hd,
            Bind.bind, Except.bind, pure, Except.pure]
  · by_cases hd : did = "" <;>
      simp [selectFrom, jsLenPos, elem0Id, defaultCollectionJ, jget, truthy, hd,
        Bind.bind, Except.bind, pure, Except.pure]

/-- C6 (amended): loading with no stored record, with a blob that fails to
parse, or with a blob whose parsed value has no positive JS `length`
(`null`, numbers, booleans, plain objects, the empty array or string)
yields exactly one collection, the freshly seeded `"Global Template"` with
zero rules, and selects it, with no error propagated; a blob parsing to a
non-empty array, however, is kept verbatim without any field
validation. -/
theorem load_default_seeding :
    ∀ (cr : JResult JVal) (sr : JResult (Option String)) (did : String),
      seedsDefault cr = true →
      loadModel cr sr did =
        { collections := .arr [ defaultCollectionJ did]
          selectedCollectionId := some (.str did) } := by
  intro cr sr did h
  rcases cr with v | e
  · cases v with
    | null => rfl
    | arr l =>
      simp only [seedsDefault, blobKept, Bool.not_eq_true'] at h
      have hl : l = [] := by
        cases l with
        | nil => rfl
        | cons a t => simp at h
      subst hl
      simp [loadModel, loadCore, jsLenPos, selectFrom_default,
        Bind.bind, Except.bind, pure, Except.pure]
    | str t =>
      simp only [seedsDefault, blobKept, Bool.not_eq_true'] at h
      have hl : t = "" := by
        cases t with
        | mk l =>
          cases l with
          | nil => rfl
          | cons a u => simp [String.length] at h
      subst hl
      simp [loadModel, loadCore, jsLenPos, selectFrom_default,
        Bind.bind, Except.bind, pure, Except.pure]
    | bool b =>
      simp [loadModel, loadCore, jsLenPos, selectFrom_default,
        Bind.bind, Except.bind, pure, Except.pure]
    | num n =>
      simp [loadModel, loadCore, jsLenPos, selectFrom_default,
        Bind.bind, Except.bind, pure, Except.pure]
    | obj fs =>
      simp [loadModel, loadCore, jsLenPos, selectFrom_default,
        Bind.bind, Except.bind, pure, Except.pure]
  · simp [loadModel, loadCore, selectFrom_default,
      Bind.bind, Except.bind, pure, Except.pure]

/-- Counterexample to C6 as stated: the stored blob `"[{}]"` parses to a
one-element array whose element has no fields at all (missing `id`,
`name`, `rules`), yet `load` keeps it verbatim instead of falling back to
the default collection — the loaded store has no collection named
`"Global Template"` and nothing selected. -/
theorem load_keeps_malformed_blob :
    (loadModel (getCollectionsModel (some (some (.arr [.obj []]))))
        (.ok none) "d").collections = .arr [.obj []] ∧
    firstCollectionNameOf
      (loadModel (getCollectionsModel (some (some (.arr [.obj []]))))
        (.ok none) "d") = none ∧
    (loadModel (getCollectionsModel (some (some (.arr [.obj []]))))
        (.ok none) "d").selectedCollectionId = none :=
  ⟨rfl, rfl, rfl⟩

/-- Witness for C6 (amended): a backend read error seeds and selects the
default collection. -/
theorem load_default_seeding_witness :
    loadModel (.err "e") (.ok none) "d" =
      { collections := .arr [ defaultCollectionJ "d"]
        selectedCollectionId := some (.str "d") } :=
  load_default_seeding (.err "e") (.ok none) "d" rfl

/-- The eight-way section discriminator test, bundled. -/
def sectionDiscrHits (sk : Discr) : Bool :=
  dIncludes sk "RequestHeader" || dIncludes sk "RequestBody" ||
  dIncludes sk "RequestMethod" || dIncludes sk "RequestPath" ||
  dIncludes sk "RequestQuery" || dIncludes sk "ResponseHeader" ||
  dIncludes sk "ResponseBody" || dIncludes sk "ResponseStatusCode"

/-- The section discriminator is absent or matches none of the eight known
section names (and raises no `TypeError`). -/
def sectionDiscrUnmatched (item : List (String × JVal)) : Bool :=
  match asObjTruthy (jget item "section") with
  | none => true
  | some sf =>
    match discrOf sf with
    | .ok sk => !(sectionDiscrHits sk)
    | .error _ => false

/-- The parsed item carries no matcher object at `section.operation.matcher`. -/
def opMatcherAbsent (item : List (String × JVal)) : Bool :=
  match asObjTruthy (jget item "section") with
  | none => true
  | some sf =>
    match asObjTruthy (jget sf "operation") with
    | none => true
    | some opf => (asObjTruthy (jget opf "matcher")).isNone

/-- An unmatched discriminator picks the default section. -/
theorem pickSection_default (sk : Discr) (h : sectionDiscrHits sk = false) :
    pickSection sk = "RequestHeader" := by
  unfold sectionDiscrHits at h
  simp only [Bool.or_eq_false_iff] at h
  unfold pickSection
  simp [h.1.1.1.1.1.1.1, h.1.1.1.1.1.1.2, h.1.1.1.1.1.2, h.1.1.1.1.2,
    h.1.1.1.2, h.1.1.2, h.1.2, h.2]

/-- When the parsed core succeeds and the section discriminator is absent
or unmatched, the section falls back to `"RequestHeader"`; the matcher
keeps its `("regex", "")` defaults whenever no matcher object is present. -/
theorem sectionCoreOf_unmatched_default (item : List (String × JVal))
    (pc : String × String × String × String × String × Option String)
    (hc : sectionCoreOf item = .ok pc)
    (hu : sectionDiscrUnmatched item = true) :
    pc.1 = "RequestHeader" ∧
    (opMatcherAbsent item = true → pc.2.1 = "regex" ∧ pc.2.2.1 = "") := by
  unfold sectionCoreOf at hc
  unfold sectionDiscrUnmatched at hu
  unfold opMatcherAbsent
  split at hc
  next hsec =>
    injection hc with hc
    subst hc
    exact ⟨rfl, fun _ => ⟨rfl, rfl⟩⟩
  next sf hsec =>
    rw [hsec] at hu
    dsimp only at hu
    cases hd : discrOf sf with
    | error u =>
      rw [hd] at hc
      exact absurd hc (by simp [Bind.bind, Except.bind])
    | ok sk =>
      rw [hd] at hc hu
      simp only [Bind.bind, Except.bind] at hc
      have hst : pickSection sk = "RequestHeader" :=
        pickSection_default sk (by simpa using hu)
      split at hc
      next hop =>
        simp only [pure, Except.pure] at hc
        injection hc with hc
        subst hc
        exact ⟨hst, fun _ => ⟨rfl, rfl⟩⟩
      next opf hop =>
        cases hmm : asObjTruthy (jget opf "matcher") with
        | some mf =>
          rw [hmm] at hc
          dsimp only at hc
          cases hpm : parseMatcher mf with
          | error u =>
            rw [hpm] at hc
            exact absurd hc (by simp)
          | ok mm =>
            rw [hpm] at hc
            dsimp only at hc
            split at hc
            next repf hrep =>
              cases hpr : parseReplacer repf with
              | error u =>
                rw [hpr] at hc
                exact absurd hc (by simp)
              | ok rr =>
                rw [hpr] at hc
                dsimp only at hc
                injection hc with hc
                subst hc
                exact ⟨hst, fun habs => absurd habs (by simp)⟩
            next hrep =>
              simp only [pure, Except.pure] at hc
              injection hc with hc
              subst hc
              exact ⟨hst, fun habs => absurd habs (by simp)⟩
        | none =>
          rw [hmm] at hc
          dsimp only at hc
          simp only [pure, Except.pure, Bind.bind, Except.bind] at hc
          split at hc
          next repf hrep =>
            cases hpr : parseReplacer repf with
            | error u =>
              rw [hpr] at hc
              exact absurd hc (by simp)
            | ok rr =>
              rw [hpr] at hc
              dsimp only at hc
              injection hc with hc
              subst hc
              exact ⟨hst, fun _ => ⟨rfl, rfl⟩⟩
          next hrep =>
            injection hc with hc
            subst hc
            exact ⟨hst, fun _ => ⟨rfl, rfl⟩⟩

/-- C9 (amended): `parseGraphQLRule` returns a `Rule` for every input
object whose `name` is a non-empty string, provided every truthy
discriminator field consulted is a string or an array (the JS values that
carry an `includes` method; a truthy number, boolean or plain object
raises a `TypeError` that the surrounding `try` converts to `undefined`);
when the section discriminator is absent or matches none of the eight
known section names the rule's section falls back to `"RequestHeader"`,
and the matcher keeps its `"regex"`/empty defaults exactly when no matcher
object is present (a matcher object under an unknown section is still
parsed). -/
theorem parseGraphQLRule_total_default :
    (∀ item, nameOf item ≠ "" → (sectionCoreOf item).isOk = true →
      (parseGraphQLRule item).isSome = true) ∧
    (∀ item, nameOf item ≠ "" → (sectionCoreOf item).isOk = true →
      sectionDiscrUnmatched item = true →
      (parseGraphQLRule item).map Rule.«section» = some "RequestHeader" ∧
      (opMatcherAbsent item = true →
        (parseGraphQLRule item).map Rule.matcherType = some (some "regex") ∧
        (parseGraphQLRule item).map Rule.matcher = some "")) := by
  constructor
  · intro item hn hok
    unfold parseGraphQLRule
    rw [if_neg hn]
    cases hc : sectionCoreOf item with
    | error u => rw [hc] at hok; simp [Except.isOk, Except.toBool] at hok
    | ok pc => rfl
  · intro item hn hok hu
    unfold parseGraphQLRule
    rw [if_neg hn]
    cases hc : sectionCoreOf item with
    | error u => rw [hc] at hok; simp [Except.isOk, Except.toBool] at hok
    | ok pc =>
      obtain ⟨h1, h2⟩ := sectionCoreOf_unmatched_default item pc hc hu
      dsimp only
      refine ⟨by simp [assembleRule, h1], fun habs => ?_⟩
      obtain ⟨hm1, hm2⟩ := h2 habs
      exact ⟨by simp [assembleRule, hm1], by simp [assembleRule, hm2]⟩

/-- An import item whose section discriminator matches no known section but
whose operation still carries a raw-value matcher. -/
def unknownSectionItem : List (String × JVal) :=
  [("name", .str "x"),
   ("section", .obj [("kind", .str "Bogus"),
     ("operation", .obj [("matcher",
       .obj [("kind", .str "MatcherRawValue"), ("value", .str "v")])])])]

/-- Counterexample to C9 as stated: a numeric `__typename` makes
`parseGraphQLRule` return `undefined` even though `name` is a non-empty
string (numbers have no `includes` method, and the resulting `TypeError`
is caught), and an unmatched section discriminator does not force the
`"regex"`/empty matcher defaults — the matcher object is still parsed. -/
theorem parseGraphQLRule_discards_and_parses_matcher :
    parseGraphQLRule
      [("name", .str "x"), ("section", .obj [("__typename", .num 5)])] = none ∧
    (parseGraphQLRule unknownSectionItem).map Rule.«section» =
      some "RequestHeader" ∧
    (parseGraphQLRule unknownSectionItem).map Rule.matcherType =
      some (some "string") ∧
    (parseGraphQLRule unknownSectionItem).map Rule.matcher = some "v" :=
  ⟨rfl, rfl, rfl, rfl⟩

/-- An import item whose section discriminator is an (empty) array: every
`.includes` probe returns `false` without throwing, so the item parses. -/
def arrayDiscrItem : List (String × JVal) :=
  [("name", .str "x"), ("section", .obj [("__typename", .arr [])])]

/-- Witness for C9 (amended): totality evaluated at the array-discriminator
item — `Array.prototype.includes` exists, so no `TypeError` is raised and
a rule is produced. -/
theorem parseGraphQLRule_total_default_witness :
    (parseGraphQLRule arrayDiscrItem).isSome = true :=
  parseGraphQLRule_total_default.1 arrayDiscrItem (by decide) (by decide)

/-- The eight host section discriminators, as an enumerated tag. -/
inductive SectionTag where
  | requestHeader | requestBody | requestMethod | requestPath
  | requestQuery | responseHeader | responseBody | responseStatusCode
deriving DecidableEq, Repr

/-- Host-side `Section` discriminator string of a tag. -/
def SectionTag.kindStr : SectionTag → String
  | .requestHeader => "SectionRequestHeader"
  | .requestBody => "SectionRequestBody"
  | .requestMethod => "SectionRequestMethod"
  | .requestPath => "SectionRequestPath"
  | .requestQuery => "SectionRequestQuery"
  | .responseHeader => "SectionResponseHeader"
  | .responseBody => "SectionResponseBody"
  | .responseStatusCode => "SectionResponseStatusCode"

/-- Host-side `Operation` discriminator string of a tag (read by nobody in
the host→editor direction; carried for encoding fidelity). -/
def SectionTag.opKindStr : SectionTag → String
  | .requestHeader => "OperationHeaderRaw"
  | .requestBody => "OperationBodyRaw"
  | .requestMethod => "OperationMethodUpdate"
  | .requestPath => "OperationPathUpdate"
  | .requestQuery => "OperationQueryUpdate"
  | .responseHeader => "OperationHeaderRaw"
  | .responseBody => "OperationBodyRaw"
  | .responseStatusCode => "OperationStatusCodeUpdate"

/-- Editor section name of a tag. -/
def SectionTag.editorStr : SectionTag → String
  | .requestHeader => "RequestHeader"
  | .requestBody => "RequestBody"
  | .requestMethod => "RequestMethod"
  | .requestPath => "RequestPath"
  | .requestQuery => "RequestQuery"
  | .responseHeader => "ResponseHeader"
  | .responseBody => "ResponseBody"
  | .responseStatusCode => "ResponseStatusCode"

/-- The matcher tags enumerated in the data model, with their payloads. -/
inductive HostMatcher where
  | rawRegex (regex : String)
  | rawValue (value : String)
  | rawFull
  | mName (nm : String)
deriving DecidableEq, Repr

/-- Wire encoding of a host matcher, as found at `operation.matcher` in the
export format `parseGraphQLRule` consumes. -/
def HostMatcher.enc : HostMatcher → JVal
  | .rawRegex p => .obj [("kind", .str "MatcherRawRegex"), ("regex", .str p)]
  | .rawValue p => .obj [("kind", .str "MatcherRawValue"), ("value", .str p)]
  | .rawFull => .obj [("kind", .str "MatcherRawFull")]
  | .mName p => .obj [("kind", .str "MatcherName"), ("name", .str p)]

/-- The resolved pattern a host matcher carries. -/
def HostMatcher.pattern : HostMatcher → String
  | .rawRegex p => p
  | .rawValue p => p
  | .rawFull => ""
  | .mName p => p

/-- The replacer tags enumerated in the data model. -/
inductive HostReplacer where
  | term (t : String)
  | workflow (w : String)
deriving DecidableEq, Repr

/-- Wire encoding of a host replacer at `operation.replacer`. -/
def HostReplacer.enc : HostReplacer → JVal
  | .term t => .obj [("kind", .str "ReplacerTerm"), ("term", .str t)]
  | .workflow w => .obj [("kind", .str "ReplacerWorkflow"), ("workflowId", .str w)]

/-- The resolved replacement term a host replacer carries. -/
def HostReplacer.termOf : HostReplacer → String
  | .term t => t
  | .workflow _ => ""

/-- The resolved workflow id a host replacer carries. -/
def HostReplacer.wfIdOf : HostReplacer → Option String
  | .term _ => none
  | .workflow w => some w

/-- A host rule in the export shape `parseGraphQLRule` consumes: a named
section object with an operation holding an optional matcher and a
replacer (replacer-only operations carry no matcher). -/
structure HostRule where
  name : String
  tag : SectionTag
  matcher : Option HostMatcher
  replacer : HostReplacer
deriving DecidableEq, Repr

/-- The export-format item for a host rule. -/
def encodeHostRule (hr : HostRule) : List (String × JVal) :=
  [("name", .str hr.name),
   ("section", .obj [("kind", .str hr.tag.kindStr),
     ("operation", .obj
       (("kind", JVal.str hr.tag.opKindStr) ::
        (match hr.matcher with
         | some m => [("matcher", m.enc)]
         | none => []) ++ [("replacer", hr.replacer.enc)]))])]

/-- Host→editor followed by editor→host. -/
def hostRoundtrip (hr : HostRule) : Option JVal :=
  (parseGraphQLRule (encodeHostRule hr)).bind toSection

/-- The matcher object of a built host section: under the `raw` wrapper
when one is present, else directly on the operation. -/
def outMatcherOf (sec : JVal) : Option JVal :=
  match rawFieldOf sec "matcher" with
  | some m => some m
  | none => opFieldOf sec "matcher"

/-- The replacer object of a built host section. -/
def outReplacerOf (sec : JVal) : Option JVal :=
  match rawFieldOf sec "replacer" with
  | some r => some r
  | none => opFieldOf sec "replacer"

/-- The resolved pattern of a host matcher object. -/
def matcherPattern (m : JVal) : String :=
  match m with
  | .obj fs =>
    match jget fs "kind" with
    | some (.str k) =>
      if k = "MatcherRawRegex" then (strField fs "regex").getD ""
      else if k = "MatcherRawValue" then (strField fs "value").getD ""
      else if k = "MatcherRawFull" then ""
      else if k = "MatcherName" then (strField fs "name").getD ""
      else ""
    | _ => ""
  | _ => ""

/-- The resolved pattern of a built host section (empty when the operation
carries no matcher). -/
def outPattern (sec : JVal) : String :=
  ((outMatcherOf sec).map matcherPattern).getD ""

/-- The resolved replacement term of a host replacer object. -/
def replacerTermOf (r : JVal) : String :=
  match r with
  | .obj fs =>
    match jget fs "kind" with
    | some (.str k) => if k = "ReplacerTerm" then (strField fs "term").getD "" else ""
    | _ => ""
  | _ => ""

/-- The resolved workflow id of a host replacer object. -/
def replacerWfOf (r : JVal) : Option String :=
  match r with
  | .obj fs =>
    match jget fs "kind" with
    | some (.str k) => if k = "ReplacerWorkflow" then strField fs "workflowId" else none
    | _ => none
  | _ => none

/-- The resolved replacement term of a built host section. -/
def outTerm (sec : JVal) : String :=
  ((outReplacerOf sec).map replacerTermOf).getD ""

/-- The resolved workflow id of a built host section. -/
def outWorkflowId (sec : JVal) : Option String :=
  (outReplacerOf sec).bind replacerWfOf

/-- `parseGraphQLRule` on a successful parse assembles the rule from the
parsed core. -/
theorem parse_eq (item : List (String × JVal)) (hn : nameOf item ≠ "")
    (pc : String × String × String × String × String × Option String)
    (hc : sectionCoreOf item = .ok pc) :
    parseGraphQLRule item = some (assembleRule item (nameOf item) pc) := by
  unfold parseGraphQLRule
  rw [if_neg hn, hc]

/-- The editor rule `parseGraphQLRule` produces for an encoded host rule:
the section follows the tag, a raw-value matcher keeps its value as a
`"string"` matcher, a raw-full matcher becomes `"full"`, a name matcher
keeps its name as a `"regex"` matcher — and a flat `MatcherRawRegex` loses
its pattern, because its discriminator only reaches the generic
`MatcherRaw` branch, which looks for a `raw` wrapper that is not there. -/
def parsedOf (hr : HostRule) : Rule :=
  { id := ""
    name := hr.name
    «section» := hr.tag.editorStr
    matcher :=
      match hr.matcher with
      | some (.rawRegex _) => ""
      | some (.rawValue p) => p
      | some .rawFull => ""
      | some (.mName p) => p
      | none => ""
    value :=
      match hr.replacer with
      | .term t => t
      | .workflow _ => ""
    active := true
    matcherType := some
      (match hr.matcher with
       | some (.rawValue _) => "string"
       | some .rawFull => "full"
       | _ => "regex")
    replacerType := some
      (match hr.replacer with
       | .term _ => "term"
       | .workflow _ => "workflow")
    condition := some ""
    workflowId :=
      match hr.replacer with
      | .term _ => none
      | .workflow w => some w }

/-- Host→editor translation of every encoded host rule, computed. -/
theorem parse_encodeHostRule (hr : HostRule) (hn : hr.name ≠ "") :
    parseGraphQLRule (encodeHostRule hr) = some (parsedOf hr) := by
  obtain ⟨nm, tag, m, rep⟩ := hr
  cases tag <;> rcases m with _ | p | p | _ | p <;> cases rep <;>
    (unfold parseGraphQLRule
     split
     next h => exact absurd h hn
     next => rfl)

/-- A non-empty string has positive length. -/
theorem strLenPos_of_ne (s : String) (h : s ≠ "") : 0 < s.length := by
  cases s with
  | mk l =>
    cases l with
    | nil => exact absurd rfl h
    | cons a t => simp [String.length]

/-- The matcher tags whose flat encoding survives `parseGraphQLRule`:
everything except a flat `MatcherRawRegex`. -/
def matcherTagAllowed : Option HostMatcher → Bool
  | some (.rawRegex _) => false
  | _ => true

/-- A pattern that survives the header/path/query blank-matcher guard:
either its trim is non-empty or it is empty outright. -/
def trimStableMatcher : Option HostMatcher → Bool
  | some m => (jsTrim m.pattern != "") || (m.pattern == "")
  | none => true

/-- The sections whose `toSection` branch blanks a whitespace-only
matcher. -/
def trimQuirkTag : SectionTag → Bool
  | .requestHeader => true
  | .responseHeader => true
  | .requestPath => true
  | .requestQuery => true
  | _ => false

/-- The sections whose host operations carry no matcher at all. -/
def replacerOnlyTag : SectionTag → Bool
  | .requestMethod => true
  | .responseStatusCode => true
  | _ => false

/-- A workflow replacer keeps its workflow id through `buildReplacer` only
when the id has a non-empty trim. -/
def workflowIdOk : HostReplacer → Bool
  | .workflow w => jsTrim w != ""
  | .term _ => true

/-- The blank-matcher guard is the identity on trim-stable patterns. -/
theorem matcherValueOf_of_stable (p : String)
    (h : ((jsTrim p != "") || (p == "")) = true) : matcherValueOf p = p := by
  rcases Bool.or_eq_true_iff.mp h with h1 | h2
  · have hne : jsTrim p ≠ "" := by simpa using h1
    unfold matcherValueOf
    rw [if_pos ⟨fun hp => hne (by rw [hp]; rfl), strLenPos_of_ne _ hne⟩]
  · have hp : p = "" := by simpa using h2
    subst hp
    rfl

/-- `buildReplacer` keeps a workflow id with non-empty trim. -/
theorem buildReplacer_workflow_eq (v w : String) (h : jsTrim w ≠ "") :
    buildReplacer (some "workflow") v (some w) =
      .obj [("kind", .str "ReplacerWorkflow"), ("workflowId", .str w)] := by
  show (if (jsTrim w).length > 0 then
      JVal.obj [("kind", JVal.str "ReplacerWorkflow"), ("workflowId", JVal.str w)]
    else JVal.obj [("kind", JVal.str "ReplacerTerm"), ("term", JVal.str v)]) =
    JVal.obj [("kind", JVal.str "ReplacerWorkflow"), ("workflowId", JVal.str w)]
  rw [if_pos (strLenPos_of_ne _ h)]


/-- Unfolds `workflowIdOk` on a workflow replacer. -/
theorem workflowIdOk_workflow (w : String) (h : workflowIdOk (.workflow w) = true) :
    jsTrim w ≠ "" := by
  simpa [workflowIdOk] using h

/-- Unfolds `trimStableMatcher` on a present matcher. -/
theorem trimStable_some (m : HostMatcher) (h : trimStableMatcher (some m) = true) :
    ((jsTrim m.pattern != "") || (m.pattern == "")) = true := by
  simpa [trimStableMatcher] using h

set_option maxHeartbeats 1000000 in
/-- C1 (amended): for host rules over the enumerated sections whose matcher
tag is `MatcherRawValue`, `MatcherRawFull` or `MatcherName` (a flat
`MatcherRawRegex` loses its pattern, see the counterexample), whose
replacer-only sections carry no matcher, whose matcher pattern survives
trimming on the header/path/query sections, and whose workflow id has a
non-empty trim, the host→editor→host round trip preserves the resolved
matcher pattern, replacer term and workflow id, even though section
discriminators and matcher tags need not be byte-identical. -/
theorem hostRoundtrip_preserves (hr : HostRule)
    (hname : hr.name ≠ "")
    (htag : matcherTagAllowed hr.matcher = true)
    (hro : replacerOnlyTag hr.tag = true → hr.matcher = none)
    (hts : trimQuirkTag hr.tag = true → trimStableMatcher hr.matcher = true)
    (hwf : workflowIdOk hr.replacer = true) :
    (hostRoundtrip hr).map outPattern =
      some ((hr.matcher.map HostMatcher.pattern).getD "") ∧
    (hostRoundtrip hr).map outTerm = some hr.replacer.termOf ∧
    (hostRoundtrip hr).map outWorkflowId = some hr.replacer.wfIdOf := by
  have hrt : hostRoundtrip hr = toSection (parsedOf hr) := by
    unfold hostRoundtrip
    rw [parse_encodeHostRule hr hname]
    rfl
  rw [hrt]
  obtain ⟨nm, tag, m, rep⟩ := hr
  cases tag <;> rcases m with _ | p | p | _ | p <;> cases rep
  all_goals try exact ⟨rfl, rfl, rfl⟩
  all_goals try simp only [matcherTagAllowed, Bool.false_eq_true] at htag
  all_goals try exact Option.noConfusion (hro rfl)
  all_goals try
    (have hmv : matcherValueOf p = p :=
      matcherValueOf_of_stable p (trimStable_some _ (hts rfl))
     refine ⟨?_, ?_, ?_⟩ <;>
       simp [toSection, parsedOf, SectionTag.editorStr, buildMatcher, buildReplacer,
         hmv, outPattern, outMatcherOf, rawFieldOf, opFieldOf, jget, matcherPattern,
         strField, outTerm, outReplacerOf, replacerTermOf, outWorkflowId,
         replacerWfOf, HostMatcher.pattern, HostReplacer.termOf,
         HostReplacer.wfIdOf]
     done)
  all_goals
    (have hw := workflowIdOk_workflow _ hwf
     first
       | (have hmv : matcherValueOf p = p :=
            matcherValueOf_of_stable p (trimStable_some _ (hts rfl))
          refine ⟨?_, ?_, ?_⟩ <;>
            simp [toSection, parsedOf, SectionTag.editorStr, buildMatcher,
              buildReplacer_workflow_eq, hw, hmv, outPattern, outMatcherOf,
              rawFieldOf, opFieldOf, jget, matcherPattern, strField, outTerm,
              outReplacerOf, replacerTermOf, outWorkflowId, replacerWfOf,
              HostMatcher.pattern, HostReplacer.termOf, HostReplacer.wfIdOf]
          done)
       | (refine ⟨?_, ?_, ?_⟩ <;>
            simp [toSection, parsedOf, SectionTag.editorStr, buildMatcher,
              matcherValueOf, buildReplacer_workflow_eq, hw, outPattern,
              outMatcherOf, rawFieldOf, opFieldOf, jget, matcherPattern, strField,
              outTerm, outReplacerOf, replacerTermOf, outWorkflowId, replacerWfOf,
              HostMatcher.pattern, HostReplacer.termOf, HostReplacer.wfIdOf]
          done))

/-- The host rule exhibiting the flat raw-regex pattern loss. -/
def flatRegexHostRule : HostRule :=
  ⟨"r1", .requestHeader, some (.rawRegex "foo"), .term "bar"⟩

/-- Counterexample to C1 as stated: a host rule whose matcher tag is the
enumerated `MatcherRawRegex` (flat, as `toSection` itself emits it) does
not survive the round trip — its discriminator only reaches the generic
`MatcherRaw` branch of `parseGraphQLRule`, which expects a nested `raw`
wrapper, so the regex pattern `"foo"` collapses to `""`. -/
theorem hostRoundtrip_drops_flat_regex :
    (hostRoundtrip flatRegexHostRule).map outPattern = some "" ∧
    (flatRegexHostRule.matcher.map HostMatcher.pattern).getD "" = "foo" ∧
    (hostRoundtrip flatRegexHostRule).map outPattern ≠
      some ((flatRegexHostRule.matcher.map HostMatcher.pattern).getD "") :=
  ⟨rfl, rfl, by decide⟩

/-- A concrete in-domain host rule for evaluating C1 (amended). -/
def demoRoundtripRule : HostRule :=
  ⟨"w1", .requestQuery, some (.rawValue "q"), .workflow "wf9"⟩

/-- Witness for C1 (amended): the round trip evaluated on a concrete
query-section raw-value rule with a workflow replacer. -/
theorem hostRoundtrip_preserves_witness :
    (hostRoundtrip demoRoundtripRule).map outPattern =
      some ((demoRoundtripRule.matcher.map HostMatcher.pattern).getD "") ∧
    (hostRoundtrip demoRoundtripRule).map outTerm =
      some demoRoundtripRule.replacer.termOf ∧
    (hostRoundtrip demoRoundtripRule).map outWorkflowId =
      some demoRoundtripRule.replacer.wfIdOf :=
  hostRoundtrip_preserves demoRoundtripRule (by decide) (by decide) (by decide)
    (by decide) (by decide)
